import Mathlib

/-!
# URL shortener: key allocation and resolution

A shallow embedding of `internal/handler/proto_handler.go`,
`internal/storage/*.go` and `internal/encoder/sha256encoder_v1.go`, followed by
the properties of the key allocation protocol.

Conventions of the embedding.

* A Go `string` is a Lean `String`; the handler only compares strings for
  equality.
* A Go `(T, error)` result is an `Except String T`, the error carrying the text
  of `err.Error()`.
* The `storage.Storage` interface is a record of its two methods over an
  explicit state `σ`; every method receives the state and hands back the state
  it leaves behind.
* The `for i := 0; ; i++` loop of `GenerateKey` has no bound, so the embedding
  runs it on a fuel counter: `none` means the fuel ran out before the loop left,
  `some o` that the call returned `o`.  The attempt counter `i` is a natural
  number handed to the generator as an `Int` (Go `int`); a run never gets near
  the `2^63` iterations a wrap of the 64-bit counter would take.
* Every call the handler makes on its two collaborators (the generator and the
  storage) is recorded, in order, in a trace.
-/

namespace OZON

/-! ## Storage (`internal/storage/storage.go`) -/

/-- The `Storage` interface: `Load(key) (value, ok)` and `Store(key, value)`,
over the state `σ` of the implementation. -/
structure Storage (σ : Type) where
  Load : σ → String → (String × Bool) × σ
  Store : σ → String → String → σ

/-- The contents of a Go `map[string]string`: at most one pair per key. -/
abbrev MapData := List (String × String)

/-- Reading `m.data[key]` with the comma-ok form: the value and `true` when the
key is present, the zero value `""` and `false` otherwise. -/
def MapData.index (m : MapData) (key : String) : String × Bool :=
  match m.lookup key with
  | some value => (value, true)
  | none => ("", false)

/-- The assignment `m.data[key] = value`: the pair of `key` is replaced. -/
def MapData.assign (m : MapData) (key value : String) : MapData :=
  (key, value) :: m.filter (fun p => p.1 != key)

/-- `MockStorage` of `main_test.go`, which is also what `SafeStringMap`
(`in_memory.go`, a `sync.Map` holding strings) does when used sequentially. -/
def MockStorage : Storage MapData where
  Load := fun m key => (m.index key, m)
  Store := fun m key value => m.assign key value

/-! ### PostgreSQL-backed storage (`internal/storage/postgres.go`) -/

/-- What a `pgx` call can come back with instead of a row. -/
inductive PgError where
  | ErrNoRows
  | other (msg : String)
deriving DecidableEq, Repr

/-- The database behind `pg.conn`: the rows of the table and whether the
connection is alive.  On a dead connection every call comes back with an
error other than `ErrNoRows`. -/
structure PgConn where
  rows : MapData
  alive : Bool
deriving DecidableEq, Repr

/-- `conn.QueryRow(ctx, "SELECT url FROM t WHERE id = $1", key).Scan(&url)`. -/
def PgConn.QueryRowScan (c : PgConn) (key : String) : Except PgError String :=
  if c.alive then
    match c.rows.lookup key with
    | some url => .ok url
    | none => .error .ErrNoRows
  else .error (.other "conn closed")

/-- `conn.Exec(ctx, "INSERT ... ON CONFLICT (id) DO UPDATE SET url = EXCLUDED.url",
key, value)`: the error, if any, and the database afterwards. -/
def PgConn.ExecUpsert (c : PgConn) (key value : String) : Option PgError × PgConn :=
  if c.alive then (none, { c with rows := c.rows.assign key value })
  else (some (.other "conn closed"), c)

/-- `PostgresStringMap.Load`: a scan error of either kind gives `("", false)`
(the second kind is logged first). -/
def PostgresStringMap.Load (pg : PgConn) (key : String) : (String × Bool) × PgConn :=
  match pg.QueryRowScan key with
  | .error .ErrNoRows => (("", false), pg)
  | .error (.other _) => (("", false), pg)
  | .ok url => ((url, true), pg)

/-- `PostgresStringMap.Store`: the error of `Exec` is logged and dropped. -/
def PostgresStringMap.Store (pg : PgConn) (key value : String) : PgConn :=
  match pg.ExecUpsert key value with
  | (some _, pg') => pg'
  | (none, pg') => pg'

/-- The `Storage` implemented by `*PostgresStringMap`. -/
def PostgresStringMap.toStorage : Storage PgConn where
  Load := PostgresStringMap.Load
  Store := PostgresStringMap.Store

/-! ## Handler (`internal/handler/proto_handler.go`) -/

/-- A call of the handler on one of its collaborators. -/
inductive Event where
  | generate (url : String) (seed : Int)
  | load (key : String)
  | store (key value : String)
deriving DecidableEq, Repr

/-- `pb.GenerateKeyResponse`. -/
structure GenerateKeyResponse where
  Message : String
  ShortUrl : String
deriving DecidableEq, Repr

/-- `pb.RedirectResponse`. -/
structure RedirectResponse where
  Url : String
deriving DecidableEq, Repr

/-- What a handler call leaves behind: its `(response, error)` result, the
state of the storage and the calls it made. -/
structure Outcome (σ α : Type) where
  result : Except String α
  storage : σ
  trace : List Event

/-- The type of `UrlServer.generator`. -/
abbrev Generator := String → Int → Except String String

/-- The message of the `Created` outcome. -/
def msgCreated : String := "Data received successfully"

/-- The message of the `AlreadyExists` outcome. -/
def msgAlreadyExists : String := "Data already received"

/-- The body of `for i := 0; ; i++ { ... }` in `GenerateKey`, from attempt `i`
on, with `fuel` iterations left, `s` the storage and `tr` the calls made so
far. -/
def GenerateKey.loop {σ : Type} (st : Storage σ) (generator : Generator) (url : String) :
    Nat → Nat → σ → List Event → Option (Outcome σ GenerateKeyResponse)
  | 0, _, _, _ => none
  | fuel + 1, i, s, tr =>
    match generator url (i : Int) with
    | .error err =>
      some ⟨.error ("failed to generate key: " ++ err), s, tr ++ [.generate url (i : Int)]⟩
    | .ok key =>
      match st.Load s key with
      | ((v, ok), s1) =>
        if !ok then
          some ⟨.ok ⟨msgCreated, key⟩, st.Store s1 key url,
            tr ++ [.generate url (i : Int), .load key, .store key url]⟩
        else if v = url then
          some ⟨.ok ⟨msgAlreadyExists, key⟩, s1,
            tr ++ [.generate url (i : Int), .load key]⟩
        else
          GenerateKey.loop st generator url fuel (i + 1) s1
            (tr ++ [.generate url (i : Int), .load key])

/-- `UrlServer.GenerateKey`, run with `fuel` iterations of its loop. -/
def GenerateKey {σ : Type} (st : Storage σ) (generator : Generator) (fuel : Nat)
    (s : σ) (url : String) : Option (Outcome σ GenerateKeyResponse) :=
  if url = "" then
    some ⟨.error "missing URL parameter", s, []⟩
  else
    GenerateKey.loop st generator url fuel 0 s []

/-- `UrlServer.Redirect`. -/
def Redirect {σ : Type} (st : Storage σ) (s : σ) (key : String) : Outcome σ RedirectResponse :=
  if key = "" then
    ⟨.error "missing key parameter", s, []⟩
  else
    match st.Load s key with
    | ((redirectURL, ok), s1) =>
      if !ok then
        ⟨.error "key not found", s1, [.load key]⟩
      else
        ⟨.ok ⟨redirectURL⟩, s1, [.load key]⟩

/-- `MockGenerator` of `main_test.go`: `fmt.Sprintf("path%d", seed)`. -/
def MockGenerator : Generator := fun _ seed => .ok ("path" ++ toString seed)

/-- The generator of `TestGenerateKey_GeneratorError`. -/
def errorGenerator : Generator := fun _ _ => .error "generation error"

/-- The writes among the calls of a trace. -/
def storesOf (tr : List Event) : List Event :=
  tr.filter (fun e => match e with
    | .store _ _ => true
    | _ => false)

/-- Attempt `j` for `url` collides in the map `s`: the generator gives a key
that `s` maps to another URL. -/
def Collides (generator : Generator) (s : MapData) (url : String) (j : Nat) : Prop :=
  ∃ key v, generator url (j : Int) = .ok key ∧ s.lookup key = some v ∧ v ≠ url

/-- The outcome `o` of a loop that leaves at attempt `n` on the map `s`, the
calls before the loop being `tr`: a generator error, a fresh key that is
written, or a key already holding `url`. -/
def LeavesWith (generator : Generator) (s : MapData) (url : String) (n : Nat)
    (tr : List Event) (o : Outcome MapData GenerateKeyResponse) : Prop :=
  (∃ e, generator url (n : Int) = .error e ∧
      o.result = .error ("failed to generate key: " ++ e) ∧ o.storage = s ∧
      storesOf o.trace = storesOf tr) ∨
  (∃ key, generator url (n : Int) = .ok key ∧ s.lookup key = none ∧
      o.result = .ok ⟨msgCreated, key⟩ ∧ o.storage = (key, url) :: s ∧
      storesOf o.trace = storesOf tr ++ [.store key url]) ∨
  (∃ key, generator url (n : Int) = .ok key ∧ s.lookup key = some url ∧
      o.result = .ok ⟨msgAlreadyExists, key⟩ ∧ o.storage = s ∧
      storesOf o.trace = storesOf tr)

/-! ## Key deriver (`internal/encoder/sha256encoder_v1.go`) -/

/-- The constant `base63Chars`. -/
def base63Chars : String := "0123456789abcdefghijklmnopqrstuvwxyzABCDEFGHIJKLMNOPQRSTUVWXYZ_"

/-- A `[32]byte`, the result type of `sha256.Sum256`. -/
structure Digest where
  bytes : List Nat
  size : bytes.length = 32
  isByte : ∀ b ∈ bytes, b < 256

/-- The conversion `[]byte(s)`: the bytes of the string. -/
def bytesOf (s : String) : List Nat :=
  (s.toList.flatMap String.utf8EncodeChar).map UInt8.toNat

/-- `strconv.Itoa`: the decimal text of an integer, with a minus sign when it
is negative. -/
def Itoa (seed : Int) : String := toString seed

/-- One round of `for i := range b { b[i] = base63Chars[sha[i]%63] }`: both
index expressions are checked, `none` standing for the run-time panic of an
index out of range. -/
def shortIdByte (sha : Digest) (i : Nat) : Option Char :=
  match sha.bytes[i]? with
  | none => none
  | some x => base63Chars.toList[x % 63]?

/-- The loop `for i := range b`, over the indices of `b` still to be filled. -/
def fillShortId (sha : Digest) : List Nat → Option (List Char)
  | [] => some []
  | i :: rest =>
    match shortIdByte sha i with
    | none => none
    | some c =>
      match fillShortId sha rest with
      | none => none
      | some cs => some (c :: cs)

/-- `GenerateSecureShortId`, over the library function `sha256.Sum256`, which
it takes as `Sum256`.  The result is `none` if an index expression panics and
otherwise the returned pair, `.ok key` standing for `(key, nil)`. -/
def GenerateSecureShortId (Sum256 : List Nat → Digest) (url : String) (seed : Int) :
    Option (Except String String) :=
  let sha := Sum256 (bytesOf (url ++ Itoa seed))
  match fillShortId sha (List.range 10) with
  | none => none
  | some b => some (.ok (String.mk b))

/-! ## Reachable maps -/

/-- The maps the server can hold: the empty map of a fresh server and the map
any returning `GenerateKey` call leaves, the calls coming one after the other
with the one generator `g`. -/
inductive Reachable (g : Generator) : MapData → Prop where
  | empty : Reachable g []
  | call {s : MapData} (fuel : Nat) (u : String) (o : Outcome MapData GenerateKeyResponse) :
      Reachable g s → GenerateKey MockStorage g fuel s u = some o → Reachable g o.storage

/-- Every entry of the map sits at the first attempt of its URL that does not
collide: the key of `u` is the key of an attempt `n` for `u`, and the attempts
before `n` give keys the map holds for other URLs. -/
def Canonical (g : Generator) (s : MapData) : Prop :=
  ∀ k u, s.lookup k = some u →
    ∃ n : Nat, g u (n : Int) = .ok k ∧ ∀ j, j < n → Collides g s u j

/-- The number of keys the map holds, `len(m.data)`. -/
def MapData.size (m : MapData) : Nat := (m.map Prod.fst).dedup.length

/-- A generator that gives the one key `key` for every URL and attempt. -/
def constantGenerator (key : String) : Generator := fun _ _ => .ok key

/-- The key of attempt `j`, `""` standing in when the generator fails. -/
def keyAt (g : Generator) (u : String) (j : Nat) : String :=
  match g u (j : Int) with
  | .ok key => key
  | .error _ => ""

/-! ## Lemmas on the map -/

theorem MapData.index_of_lookup_none {m : MapData} {key : String}
    (h : m.lookup key = none) : m.index key = ("", false) := by
  simp [MapData.index, h]

theorem MapData.index_of_lookup_some {m : MapData} {key v : String}
    (h : m.lookup key = some v) : m.index key = (v, true) := by
  simp [MapData.index, h]

theorem MapData.not_mem_of_lookup_none {m : MapData} {key : String}
    (h : m.lookup key = none) : ∀ p ∈ m, p.1 ≠ key := by
  induction m with
  | nil => intro p hp; cases hp
  | cons q m ih =>
    obtain ⟨a, b⟩ := q
    rw [List.lookup_cons] at h
    intro p hp
    cases hka : (key == a) with
    | true => rw [hka] at h; cases h
    | false =>
      rw [hka] at h
      rcases List.mem_cons.1 hp with hp | hp
      · subst hp
        intro hx
        simp only at hx
        simp [hx] at hka
      · exact ih h p hp

theorem MapData.assign_of_lookup_none {m : MapData} {key : String} (value : String)
    (h : m.lookup key = none) : m.assign key value = (key, value) :: m := by
  unfold MapData.assign
  congr 1
  apply List.filter_eq_self.2
  intro p hp
  simpa using MapData.not_mem_of_lookup_none h p hp

theorem MapData.lookup_cons_self (m : MapData) (key value : String) :
    List.lookup key ((key, value) :: m) = some value := by
  simp [List.lookup_cons]

theorem MapData.lookup_cons_of_ne (m : MapData) {key key' : String} (value : String)
    (h : key' ≠ key) : List.lookup key' ((key, value) :: m) = List.lookup key' m := by
  have hb : (key' == key) = false := by simpa using h
  rw [List.lookup_cons, hb]

/-- A key present in `m` keeps its value when an absent key is added. -/
theorem MapData.lookup_cons_of_present {m : MapData} {key key' v : String} (value : String)
    (habs : m.lookup key = none) (h : m.lookup key' = some v) :
    List.lookup key' ((key, value) :: m) = some v := by
  have hne : key' ≠ key := by
    rintro rfl
    rw [habs] at h
    cases h
  rw [MapData.lookup_cons_of_ne m value hne, h]

/-! ## One iteration of the loop on a map -/

theorem loop_zero {σ : Type} (st : Storage σ) (g : Generator) (u : String) (i : Nat) (s : σ)
    (tr : List Event) : GenerateKey.loop st g u 0 i s tr = none := rfl

theorem loop_failed (g : Generator) (u : String) (fuel i : Nat) (s : MapData)
    (tr : List Event) {e : String} (hg : g u (i : Int) = .error e) :
    GenerateKey.loop MockStorage g u (fuel + 1) i s tr =
      some ⟨.error ("failed to generate key: " ++ e), s, tr ++ [.generate u (i : Int)]⟩ := by
  simp [GenerateKey.loop, hg]

theorem loop_absent (g : Generator) (u : String) (fuel i : Nat) (s : MapData)
    (tr : List Event) {key : String} (hg : g u (i : Int) = .ok key)
    (hl : s.lookup key = none) :
    GenerateKey.loop MockStorage g u (fuel + 1) i s tr =
      some ⟨.ok ⟨msgCreated, key⟩, (key, u) :: s,
        tr ++ [.generate u (i : Int), .load key, .store key u]⟩ := by
  simp [GenerateKey.loop, hg, MockStorage, MapData.index_of_lookup_none hl,
    MapData.assign_of_lookup_none u hl]

theorem loop_same (g : Generator) (u : String) (fuel i : Nat) (s : MapData)
    (tr : List Event) {key : String} (hg : g u (i : Int) = .ok key)
    (hl : s.lookup key = some u) :
    GenerateKey.loop MockStorage g u (fuel + 1) i s tr =
      some ⟨.ok ⟨msgAlreadyExists, key⟩, s, tr ++ [.generate u (i : Int), .load key]⟩ := by
  simp [GenerateKey.loop, hg, MockStorage, MapData.index_of_lookup_some hl]

theorem loop_taken (g : Generator) (u : String) (fuel i : Nat) (s : MapData)
    (tr : List Event) {key v : String} (hg : g u (i : Int) = .ok key)
    (hl : s.lookup key = some v) (hv : v ≠ u) :
    GenerateKey.loop MockStorage g u (fuel + 1) i s tr =
      GenerateKey.loop MockStorage g u fuel (i + 1) s
        (tr ++ [.generate u (i : Int), .load key]) := by
  simp [GenerateKey.loop, hg, MockStorage, MapData.index_of_lookup_some hl, hv]

/-! ## How the loop leaves -/

theorem storesOf_append_probe (tr : List Event) (u key : String) (i : Int) :
    storesOf (tr ++ [.generate u i, .load key]) = storesOf tr := by
  simp [storesOf, List.filter_append]

theorem storesOf_append_generate (tr : List Event) (u : String) (i : Int) :
    storesOf (tr ++ [.generate u i]) = storesOf tr := by
  simp [storesOf, List.filter_append]

theorem storesOf_append_write (tr : List Event) (u key : String) (i : Int) :
    storesOf (tr ++ [.generate u i, .load key, .store key u]) =
      storesOf tr ++ [.store key u] := by
  simp [storesOf, List.filter_append]

/-- A loop that returns left at some attempt `n`, every attempt before it
having collided. -/
theorem loop_sound (g : Generator) (u : String) :
    ∀ (fuel i : Nat) (s : MapData) (tr : List Event) (o : Outcome MapData GenerateKeyResponse),
      GenerateKey.loop MockStorage g u fuel i s tr = some o →
      ∃ n, i ≤ n ∧ n < i + fuel ∧ (∀ j, i ≤ j → j < n → Collides g s u j) ∧
        LeavesWith g s u n tr o := by
  intro fuel
  induction fuel with
  | zero => intro i s tr o h; simp [loop_zero] at h
  | succ fuel ih =>
    intro i s tr o h
    cases hg : g u (i : Int) with
    | error e =>
      rw [loop_failed g u fuel i s tr hg] at h
      cases h
      refine ⟨i, le_refl i, by omega, fun j h1 h2 => absurd h2 (by omega), ?_⟩
      exact Or.inl ⟨e, hg, rfl, rfl, storesOf_append_generate tr u i⟩
    | ok key =>
      cases hl : s.lookup key with
      | none =>
        rw [loop_absent g u fuel i s tr hg hl] at h
        cases h
        refine ⟨i, le_refl i, by omega, fun j h1 h2 => absurd h2 (by omega), ?_⟩
        exact Or.inr (Or.inl ⟨key, hg, hl, rfl, rfl, storesOf_append_write tr u key i⟩)
      | some v =>
        by_cases hv : v = u
        · subst hv
          rw [loop_same g v fuel i s tr hg hl] at h
          cases h
          refine ⟨i, le_refl i, by omega, fun j h1 h2 => absurd h2 (by omega), ?_⟩
          exact Or.inr (Or.inr ⟨key, hg, hl, rfl, rfl, storesOf_append_probe tr v key i⟩)
        · rw [loop_taken g u fuel i s tr hg hl hv] at h
          obtain ⟨n, hin, hnf, hcol, hfin⟩ := ih (i + 1) s _ o h
          refine ⟨n, by omega, by omega, ?_, ?_⟩
          · intro j h1 h2
            rcases Nat.eq_or_lt_of_le h1 with h3 | h3
            · subst h3
              exact ⟨key, v, hg, hl, hv⟩
            · exact hcol j h3 h2
          · unfold LeavesWith at hfin
            rw [storesOf_append_probe] at hfin
            exact hfin

/-- When every attempt from `i` to `n` collides and attempt `n` does not, a
loop with more than `n - i` iterations of fuel returns, leaving at `n`. -/
theorem loop_complete (g : Generator) (u : String) (s : MapData) (n : Nat)
    (hfin : (∃ e, g u (n : Int) = .error e) ∨
      (∃ key, g u (n : Int) = .ok key ∧ (s.lookup key = none ∨ s.lookup key = some u))) :
    ∀ (fuel i : Nat) (tr : List Event), i ≤ n → n < i + fuel →
      (∀ j, i ≤ j → j < n → Collides g s u j) →
      ∃ o, GenerateKey.loop MockStorage g u fuel i s tr = some o ∧ LeavesWith g s u n tr o := by
  intro fuel
  induction fuel with
  | zero => intro i tr h1 h2; omega
  | succ fuel ih =>
    intro i tr h1 h2 hcol
    rcases Nat.eq_or_lt_of_le h1 with h3 | h3
    · subst h3
      rcases hfin with ⟨e, hg⟩ | ⟨key, hg, hl | hl⟩
      · exact ⟨_, loop_failed g u fuel i s tr hg,
          Or.inl ⟨e, hg, rfl, rfl, storesOf_append_generate tr u i⟩⟩
      · exact ⟨_, loop_absent g u fuel i s tr hg hl,
          Or.inr (Or.inl ⟨key, hg, hl, rfl, rfl, storesOf_append_write tr u key i⟩)⟩
      · exact ⟨_, loop_same g u fuel i s tr hg hl,
          Or.inr (Or.inr ⟨key, hg, hl, rfl, rfl, storesOf_append_probe tr u key i⟩)⟩
    · obtain ⟨key, v, hg, hl, hv⟩ := hcol i (le_refl i) h3
      obtain ⟨o, ho, hfin'⟩ := ih (i + 1) (tr ++ [.generate u (i : Int), .load key])
        (by omega) (by omega) (fun j h4 h5 => hcol j (by omega) h5)
      refine ⟨o, ?_, ?_⟩
      · rw [loop_taken g u fuel i s tr hg hl hv]
        exact ho
      · unfold LeavesWith at hfin'
        rw [storesOf_append_probe] at hfin'
        exact hfin'

/-- For a non-empty URL `GenerateKey` is its loop from attempt `0`. -/
theorem GenerateKey_of_ne {σ : Type} (st : Storage σ) (g : Generator) (fuel : Nat) (s : σ)
    {u : String} (hu : u ≠ "") :
    GenerateKey st g fuel s u = GenerateKey.loop st g u fuel 0 s [] := by
  simp [GenerateKey, hu]

/-- A returning `GenerateKey` on a non-empty URL left its loop at some attempt. -/
theorem GenerateKey_sound (g : Generator) (fuel : Nat) (s : MapData) {u : String}
    (hu : u ≠ "") {o : Outcome MapData GenerateKeyResponse}
    (h : GenerateKey MockStorage g fuel s u = some o) :
    ∃ n, n < fuel ∧ (∀ j, j < n → Collides g s u j) ∧ LeavesWith g s u n [] o := by
  rw [GenerateKey_of_ne MockStorage g fuel s hu] at h
  obtain ⟨n, _, hnf, hcol, hfin⟩ := loop_sound g u fuel 0 s [] o h
  exact ⟨n, by omega, fun j hj => hcol j (Nat.zero_le j) hj, hfin⟩

/-- The converse of `GenerateKey_sound`. -/
theorem GenerateKey_complete (g : Generator) (fuel : Nat) (s : MapData) {u : String}
    (hu : u ≠ "") (n : Nat) (hn : n < fuel) (hcol : ∀ j, j < n → Collides g s u j)
    (hfin : (∃ e, g u (n : Int) = .error e) ∨
      (∃ key, g u (n : Int) = .ok key ∧ (s.lookup key = none ∨ s.lookup key = some u))) :
    ∃ o, GenerateKey MockStorage g fuel s u = some o ∧ LeavesWith g s u n [] o := by
  rw [GenerateKey_of_ne MockStorage g fuel s hu]
  exact loop_complete g u s n hfin fuel 0 [] (Nat.zero_le n) (by omega)
    (fun j _ hj => hcol j hj)

theorem msgCreated_ne_msgAlreadyExists : msgCreated ≠ msgAlreadyExists := by decide

/-- The key a successful `GenerateKey` returns holds the URL afterwards. -/
theorem GenerateKey_key_stored (g : Generator) (fuel : Nat) (s : MapData) {u m k : String}
    (hu : u ≠ "") {o : Outcome MapData GenerateKeyResponse}
    (h : GenerateKey MockStorage g fuel s u = some o) (hr : o.result = .ok ⟨m, k⟩) :
    o.storage.lookup k = some u := by
  obtain ⟨n, _, _, hfin⟩ := GenerateKey_sound g fuel s hu h
  rcases hfin with ⟨e, _, hres, _⟩ | ⟨key, _, _, hres, hst, _⟩ | ⟨key, _, hl, hres, hst, _⟩
  · rw [hres] at hr; cases hr
  · rw [hres] at hr
    cases hr
    rw [hst]
    exact MapData.lookup_cons_self s k u
  · rw [hres] at hr
    cases hr
    rw [hst]
    exact hl

/-- The key a successful `GenerateKey` returns was absent from the map before
the call or held the URL already. -/
theorem GenerateKey_key_before (g : Generator) (fuel : Nat) (s : MapData) {u m k : String}
    (hu : u ≠ "") {o : Outcome MapData GenerateKeyResponse}
    (h : GenerateKey MockStorage g fuel s u = some o) (hr : o.result = .ok ⟨m, k⟩) :
    s.lookup k = none ∨ s.lookup k = some u := by
  obtain ⟨n, _, _, hfin⟩ := GenerateKey_sound g fuel s hu h
  rcases hfin with ⟨e, _, hres, _⟩ | ⟨key, _, hl, hres, _, _⟩ | ⟨key, _, hl, hres, _, _⟩
  · rw [hres] at hr; cases hr
  · rw [hres] at hr
    cases hr
    exact Or.inl hl
  · rw [hres] at hr
    cases hr
    exact Or.inr hl

/-- A collision stays one when a key absent from the map is added. -/
theorem Collides.cons {g : Generator} {s : MapData} {u : String} {j : Nat} {key : String}
    (value : String) (habs : s.lookup key = none) (h : Collides g s u j) :
    Collides g ((key, value) :: s) u j := by
  obtain ⟨kj, v, hg, hl, hv⟩ := h
  exact ⟨kj, v, hg, MapData.lookup_cons_of_present value habs hl, hv⟩

/-! ## The claims on allocation and resolution -/

/-- C1. Idempotent resubmission: when `GenerateKey(u)`, `u` non-empty, returns
key `k` with "Data received successfully" on some map, the same call on the
resulting map returns `k` with "Data already received" and leaves the map as it
is; and on the empty map the first call does return the key of attempt 0 with
"Data received successfully". -/
theorem C1_idempotent_resubmission (g : Generator) (fuel : Nat) (s : MapData) (u k : String)
    (o : Outcome MapData GenerateKeyResponse) (hu : u ≠ "")
    (h : GenerateKey MockStorage g fuel s u = some o)
    (hr : o.result = .ok ⟨msgCreated, k⟩) :
    (∃ o2, GenerateKey MockStorage g fuel o.storage u = some o2 ∧
      o2.result = .ok ⟨msgAlreadyExists, k⟩ ∧ o2.storage = o.storage) ∧
    (∀ k0 fuel0, g u 0 = .ok k0 →
      ∃ o0, GenerateKey MockStorage g (fuel0 + 1) [] u = some o0 ∧
        o0.result = .ok ⟨msgCreated, k0⟩ ∧ o0.storage = [(k0, u)]) := by
  constructor
  · obtain ⟨n, hn, hcol, hfin⟩ := GenerateKey_sound g fuel s hu h
    rcases hfin with ⟨e, _, hres, _⟩ | ⟨key, hg, hl, hres, hst, _⟩ | ⟨key, _, _, hres, _, _⟩
    · rw [hres] at hr; cases hr
    · rw [hres] at hr
      cases hr
      rw [hst]
      obtain ⟨o2, ho2, hfin2⟩ := GenerateKey_complete g fuel ((k, u) :: s) hu n hn
        (fun j hj => (hcol j hj).cons u hl)
        (Or.inr ⟨k, hg, Or.inr (MapData.lookup_cons_self s k u)⟩)
      refine ⟨o2, ho2, ?_⟩
      rcases hfin2 with ⟨e, hg2, _⟩ | ⟨key, hg2, hl2, _⟩ | ⟨key, hg2, _, hres2, hst2, _⟩
      · rw [hg] at hg2; cases hg2
      · rw [hg] at hg2
        cases hg2
        rw [MapData.lookup_cons_self] at hl2
        cases hl2
      · rw [hg] at hg2
        cases hg2
        exact ⟨hres2, hst2⟩
    · rw [hres] at hr
      injection hr with hr
      injection hr with hm _
      exact absurd hm.symm msgCreated_ne_msgAlreadyExists
  · intro k0 fuel0 hg0
    obtain ⟨o0, ho0, hfin0⟩ := GenerateKey_complete g (fuel0 + 1) [] hu 0 (Nat.succ_pos fuel0)
      (fun j hj => absurd hj (Nat.not_lt_zero j))
      (Or.inr ⟨k0, by simpa using hg0, Or.inl rfl⟩)
    refine ⟨o0, ho0, ?_⟩
    have hg0' : g u ((0 : Nat) : Int) = .ok k0 := by simpa using hg0
    rcases hfin0 with ⟨e, hg2, _⟩ | ⟨key, hg2, _, hres2, hst2, _⟩ | ⟨key, _, hl2, _⟩
    · rw [hg0'] at hg2; cases hg2
    · rw [hg0'] at hg2
      cases hg2
      exact ⟨hres2, hst2⟩
    · cases hl2

/-- C1, on the test of `main_test.go`: `"http://example.com"` with the stub
generator on the empty map. -/
theorem C1_idempotent_resubmission_witness :
    GenerateKey MockStorage MockGenerator 1 [] "http://example.com" =
        some ⟨.ok ⟨msgCreated, "path0"⟩, [("path0", "http://example.com")],
          [.generate "http://example.com" 0, .load "path0",
            .store "path0" "http://example.com"]⟩ ∧
      ((∃ o2, GenerateKey MockStorage MockGenerator 1
          [("path0", "http://example.com")] "http://example.com" = some o2 ∧
        o2.result = .ok ⟨msgAlreadyExists, "path0"⟩ ∧
        o2.storage = [("path0", "http://example.com")]) ∧
      (∀ k0 fuel0, MockGenerator "http://example.com" 0 = .ok k0 →
        ∃ o0, GenerateKey MockStorage MockGenerator (fuel0 + 1) [] "http://example.com" =
            some o0 ∧
          o0.result = .ok ⟨msgCreated, k0⟩ ∧ o0.storage = [(k0, "http://example.com")])) :=
  ⟨rfl, C1_idempotent_resubmission MockGenerator 1 [] "http://example.com" "path0"
    ⟨.ok ⟨msgCreated, "path0"⟩, [("path0", "http://example.com")],
      [.generate "http://example.com" 0, .load "path0",
        .store "path0" "http://example.com"]⟩ (by decide) rfl rfl⟩

/-- C2. Distinct URLs get distinct keys: when `GenerateKey(u1)` returns key `k1`
and a following `GenerateKey(u2)` on the resulting map returns key `k2`, with
`u1` and `u2` non-empty and different, then `k1` and `k2` are different,
whatever the map, the generator and the two outcomes. -/
theorem C2_distinct_urls_distinct_keys (g : Generator) (fuel1 fuel2 : Nat) (s : MapData)
    (u1 u2 m1 m2 k1 k2 : String) (o1 o2 : Outcome MapData GenerateKeyResponse)
    (hu1 : u1 ≠ "") (hu2 : u2 ≠ "") (hne : u1 ≠ u2)
    (h1 : GenerateKey MockStorage g fuel1 s u1 = some o1) (hr1 : o1.result = .ok ⟨m1, k1⟩)
    (h2 : GenerateKey MockStorage g fuel2 o1.storage u2 = some o2)
    (hr2 : o2.result = .ok ⟨m2, k2⟩) : k1 ≠ k2 := by
  have hs1 := GenerateKey_key_stored g fuel1 s hu1 h1 hr1
  have hb2 := GenerateKey_key_before g fuel2 o1.storage hu2 h2 hr2
  rintro rfl
  rw [hs1] at hb2
  rcases hb2 with hb | hb
  · cases hb
  · exact hne (Option.some.inj hb)

/-- C2, with the stub generator, which makes any two URLs collide on attempt
0: the second URL gets the key of attempt 1. -/
theorem C2_distinct_urls_distinct_keys_witness :
    GenerateKey MockStorage MockGenerator 2 [("path0", "http://a.org")] "http://b.org" =
        some ⟨.ok ⟨msgCreated, "path1"⟩,
          [("path1", "http://b.org"), ("path0", "http://a.org")],
          [.generate "http://b.org" 0, .load "path0", .generate "http://b.org" 1,
            .load "path1", .store "path1" "http://b.org"]⟩ ∧
      "path0" ≠ "path1" :=
  ⟨rfl, C2_distinct_urls_distinct_keys MockGenerator 1 2 [] "http://a.org" "http://b.org"
    msgCreated msgCreated "path0" "path1"
    ⟨.ok ⟨msgCreated, "path0"⟩, [("path0", "http://a.org")],
      [.generate "http://a.org" 0, .load "path0", .store "path0" "http://a.org"]⟩
    ⟨.ok ⟨msgCreated, "path1"⟩, [("path1", "http://b.org"), ("path0", "http://a.org")],
      [.generate "http://b.org" 0, .load "path0", .generate "http://b.org" 1,
        .load "path1", .store "path1" "http://b.org"]⟩
    (by decide) (by decide) (by decide) rfl rfl rfl rfl⟩

/-- `Redirect` on a map, for a non-empty key the map holds. -/
theorem Redirect_of_lookup_some (s : MapData) {key v : String} (hk : key ≠ "")
    (hl : s.lookup key = some v) :
    Redirect MockStorage s key = ⟨.ok ⟨v⟩, s, [.load key]⟩ := by
  simp [Redirect, hk, MockStorage, MapData.index_of_lookup_some hl]

/-- `Redirect` on a map, for a non-empty key the map does not hold. -/
theorem Redirect_of_lookup_none (s : MapData) {key : String} (hk : key ≠ "")
    (hl : s.lookup key = none) :
    Redirect MockStorage s key = ⟨.error "key not found", s, [.load key]⟩ := by
  simp [Redirect, hk, MockStorage, MapData.index_of_lookup_none hl]

/-- `Redirect` on the empty key, for any storage. -/
theorem Redirect_empty {σ : Type} (st : Storage σ) (s : σ) :
    Redirect st s "" = ⟨.error "missing key parameter", s, []⟩ := by
  simp [Redirect]

/-- C3. Allocate-then-resolve round trip: when `GenerateKey(u)`, `u` non-empty,
returns a non-empty key `k` with either outcome, `Redirect(k)` on the resulting
map succeeds and returns exactly `u`. -/
theorem C3_allocate_then_resolve (g : Generator) (fuel : Nat) (s : MapData) (u m k : String)
    (o : Outcome MapData GenerateKeyResponse) (hu : u ≠ "") (hk : k ≠ "")
    (h : GenerateKey MockStorage g fuel s u = some o) (hr : o.result = .ok ⟨m, k⟩) :
    (Redirect MockStorage o.storage k).result = .ok ⟨u⟩ := by
  rw [Redirect_of_lookup_some o.storage hk (GenerateKey_key_stored g fuel s hu h hr)]

/-- C3, on the scenario of the tests: `"path0"` resolves to the URL it was
allocated for. -/
theorem C3_allocate_then_resolve_witness :
    GenerateKey MockStorage MockGenerator 1 [] "http://example.com" =
        some ⟨.ok ⟨msgCreated, "path0"⟩, [("path0", "http://example.com")],
          [.generate "http://example.com" 0, .load "path0",
            .store "path0" "http://example.com"]⟩ ∧
      (Redirect MockStorage [("path0", "http://example.com")] "path0").result =
        .ok ⟨"http://example.com"⟩ :=
  ⟨rfl, C3_allocate_then_resolve MockGenerator 1 [] "http://example.com" msgCreated "path0"
    ⟨.ok ⟨msgCreated, "path0"⟩, [("path0", "http://example.com")],
      [.generate "http://example.com" 0, .load "path0",
        .store "path0" "http://example.com"]⟩ (by decide) (by decide) rfl rfl⟩

/-- C4. Sequential probing from attempt 0: when `GenerateKey(u)`, `u`
non-empty, returns key `k` with message `m`, then `k` is the key of an attempt
`n` at which the map has no entry for the key or maps it to `u`; every attempt
before `n` gave a key mapped to a URL other than `u`, so `n` is the least such
attempt; `m` is "Data received successfully" exactly when the key was absent
and "Data already received" exactly when it was mapped to `u`. -/
theorem C4_sequential_probing (g : Generator) (fuel : Nat) (s : MapData) (u m k : String)
    (o : Outcome MapData GenerateKeyResponse) (hu : u ≠ "")
    (h : GenerateKey MockStorage g fuel s u = some o) (hr : o.result = .ok ⟨m, k⟩) :
    ∃ n : Nat, g u (n : Int) = .ok k ∧
      (s.lookup k = none ∨ s.lookup k = some u) ∧
      (∀ i, i < n → ∃ ki v, g u (i : Int) = .ok ki ∧ s.lookup ki = some v ∧ v ≠ u) ∧
      (∀ i, i < n → ¬ ∃ ki, g u (i : Int) = .ok ki ∧
        (s.lookup ki = none ∨ s.lookup ki = some u)) ∧
      (m = msgCreated ↔ s.lookup k = none) ∧
      (m = msgAlreadyExists ↔ s.lookup k = some u) := by
  obtain ⟨n, _, hcol, hfin⟩ := GenerateKey_sound g fuel s hu h
  have hleast : ∀ i, i < n → ¬ ∃ ki, g u (i : Int) = .ok ki ∧
      (s.lookup ki = none ∨ s.lookup ki = some u) := by
    rintro i hi ⟨ki, hgi, hli⟩
    obtain ⟨kj, v, hgj, hlj, hv⟩ := hcol i hi
    rw [hgi] at hgj
    cases hgj
    rw [hlj] at hli
    rcases hli with hli | hli
    · cases hli
    · exact hv (Option.some.inj hli)
  rcases hfin with ⟨e, _, hres, _⟩ | ⟨key, hg, hl, hres, _, _⟩ | ⟨key, hg, hl, hres, _, _⟩
  · rw [hres] at hr; cases hr
  · rw [hres] at hr
    cases hr
    refine ⟨n, hg, Or.inl hl, hcol, hleast, ⟨fun _ => hl, fun _ => rfl⟩, ?_⟩
    constructor
    · intro hm
      exact absurd hm msgCreated_ne_msgAlreadyExists
    · intro hl2
      rw [hl] at hl2
      cases hl2
  · rw [hres] at hr
    cases hr
    refine ⟨n, hg, Or.inr hl, hcol, hleast, ?_, ⟨fun _ => hl, fun _ => rfl⟩⟩
    constructor
    · intro hm
      exact absurd hm.symm msgCreated_ne_msgAlreadyExists
    · intro hl2
      rw [hl] at hl2
      cases hl2

/-- C4, on the stub generator with `"path0"` mapped to another URL: the call
returns `"path1"` with "Data received successfully". -/
theorem C4_sequential_probing_witness :
    GenerateKey MockStorage MockGenerator 2 [("path0", "http://other.org")]
        "http://example.com" =
      some ⟨.ok ⟨msgCreated, "path1"⟩,
        [("path1", "http://example.com"), ("path0", "http://other.org")],
        [.generate "http://example.com" 0, .load "path0", .generate "http://example.com" 1,
          .load "path1", .store "path1" "http://example.com"]⟩ ∧
    ∃ n : Nat, MockGenerator "http://example.com" (n : Int) = .ok "path1" ∧
      (List.lookup "path1" [("path0", "http://other.org")] = none ∨
        List.lookup "path1" [("path0", "http://other.org")] = some "http://example.com") ∧
      (∀ i, i < n → ∃ ki v, MockGenerator "http://example.com" (i : Int) = .ok ki ∧
        List.lookup ki [("path0", "http://other.org")] = some v ∧ v ≠ "http://example.com") ∧
      (∀ i, i < n → ¬ ∃ ki, MockGenerator "http://example.com" (i : Int) = .ok ki ∧
        (List.lookup ki [("path0", "http://other.org")] = none ∨
          List.lookup ki [("path0", "http://other.org")] = some "http://example.com")) ∧
      (msgCreated = msgCreated ↔ List.lookup "path1" [("path0", "http://other.org")] = none) ∧
      (msgCreated = msgAlreadyExists ↔
        List.lookup "path1" [("path0", "http://other.org")] = some "http://example.com") :=
  ⟨rfl, C4_sequential_probing MockGenerator 2 [("path0", "http://other.org")]
    "http://example.com" msgCreated "path1"
    ⟨.ok ⟨msgCreated, "path1"⟩,
      [("path1", "http://example.com"), ("path0", "http://other.org")],
      [.generate "http://example.com" 0, .load "path0", .generate "http://example.com" 1,
        .load "path1", .store "path1" "http://example.com"]⟩ (by decide) rfl rfl⟩

/-- C5. Single write, no update in place: a returning `GenerateKey` leaves the
map as it was, and writes nothing, when the outcome is "Data already received";
when the outcome is "Data received successfully" it wrote once, the resulting
map being the input map with the one new entry (returned key, url), whose key
was absent before; these are the only two outcomes of a successful call; and in
every case, errors included, each key present before the call maps to the same
URL after it. -/
theorem C5_single_write (g : Generator) (fuel : Nat) (s : MapData) (u : String)
    (o : Outcome MapData GenerateKeyResponse)
    (h : GenerateKey MockStorage g fuel s u = some o) :
    (∀ k, o.result = .ok ⟨msgAlreadyExists, k⟩ → o.storage = s ∧ storesOf o.trace = []) ∧
    (∀ k, o.result = .ok ⟨msgCreated, k⟩ →
      o.storage = (k, u) :: s ∧ s.lookup k = none ∧ storesOf o.trace = [.store k u]) ∧
    (∀ m k, o.result = .ok ⟨m, k⟩ → m = msgCreated ∨ m = msgAlreadyExists) ∧
    (∀ k v, s.lookup k = some v → o.storage.lookup k = some v) := by
  by_cases hu : u = ""
  · subst hu
    simp only [GenerateKey, if_true] at h
    cases h
    refine ⟨?_, ?_, ?_, fun k v hl => hl⟩
    · intro k hk; cases hk
    · intro k hk; cases hk
    · intro m k hk; cases hk
  · obtain ⟨n, _, _, hfin⟩ := GenerateKey_sound g fuel s hu h
    rcases hfin with ⟨e, _, hres, hst, _⟩ | ⟨key, _, hl, hres, hst, htr⟩ |
      ⟨key, _, hl, hres, hst, htr⟩
    · rw [hres, hst]
      refine ⟨?_, ?_, ?_, fun k v hl => hl⟩
      · intro k hk; cases hk
      · intro k hk; cases hk
      · intro m k hk; cases hk
    · rw [hres, hst, htr]
      refine ⟨?_, ?_, ?_, ?_⟩
      · intro k hk
        injection hk with hk
        injection hk with hm _
        exact absurd hm msgCreated_ne_msgAlreadyExists
      · intro k hk
        cases hk
        exact ⟨rfl, hl, rfl⟩
      · intro m k hk
        cases hk
        exact Or.inl rfl
      · intro k v hk
        exact MapData.lookup_cons_of_present u hl hk
    · rw [hres, hst, htr]
      refine ⟨?_, ?_, ?_, fun k v hk => hk⟩
      · intro k hk
        exact ⟨rfl, rfl⟩
      · intro k hk
        injection hk with hk
        injection hk with hm _
        exact absurd hm.symm msgCreated_ne_msgAlreadyExists
      · intro m k hk
        cases hk
        exact Or.inr rfl

/-- C5, on a call that collides once and then writes: the entry it collided
with is still there. -/
theorem C5_single_write_witness :
    (∀ k, (Except.ok ⟨msgCreated, "path1"⟩ : Except String GenerateKeyResponse) =
        .ok ⟨msgAlreadyExists, k⟩ →
      [("path1", "http://example.com"), ("path0", "http://other.org")] =
          [("path0", "http://other.org")] ∧
        storesOf [.generate "http://example.com" 0, .load "path0",
          .generate "http://example.com" 1, .load "path1",
          .store "path1" "http://example.com"] = []) ∧
    (∀ k, (Except.ok ⟨msgCreated, "path1"⟩ : Except String GenerateKeyResponse) =
        .ok ⟨msgCreated, k⟩ →
      [("path1", "http://example.com"), ("path0", "http://other.org")] =
          (k, "http://example.com") :: [("path0", "http://other.org")] ∧
        List.lookup k [("path0", "http://other.org")] = none ∧
        storesOf [.generate "http://example.com" 0, .load "path0",
          .generate "http://example.com" 1, .load "path1",
          .store "path1" "http://example.com"] = [.store k "http://example.com"]) ∧
    (∀ m k, (Except.ok ⟨msgCreated, "path1"⟩ : Except String GenerateKeyResponse) =
        .ok ⟨m, k⟩ → m = msgCreated ∨ m = msgAlreadyExists) ∧
    (∀ k v, List.lookup k [("path0", "http://other.org")] = some v →
      List.lookup k [("path1", "http://example.com"), ("path0", "http://other.org")] =
        some v) :=
  C5_single_write MockGenerator 2 [("path0", "http://other.org")] "http://example.com"
    ⟨.ok ⟨msgCreated, "path1"⟩,
      [("path1", "http://example.com"), ("path0", "http://other.org")],
      [.generate "http://example.com" 0, .load "path0", .generate "http://example.com" 1,
        .load "path1", .store "path1" "http://example.com"]⟩ rfl

/-- `GenerateKey` on the empty URL, for any storage and generator. -/
theorem GenerateKey_empty {σ : Type} (st : Storage σ) (g : Generator) (fuel : Nat) (s : σ) :
    GenerateKey st g fuel s "" = some ⟨.error "missing URL parameter", s, []⟩ := by
  simp [GenerateKey]

/-- C6. Failure of `GenerateKey` is reported and atomic: on the empty URL the
call returns the error "missing URL parameter" with no call on the generator or
the storage, whatever the storage is; when the generator returns an error at the
attempt being probed (every attempt before it having collided), the call
returns the error "failed to generate key: " followed by the generator's error;
and whenever the call returns an error, it is one of these two, the map is what
it was before the call and nothing was written. -/
theorem C6_failure_reported_and_atomic (g : Generator) (fuel : Nat) (s : MapData) :
    (∀ (σ : Type) (st : Storage σ) (x : σ),
      GenerateKey st g fuel x "" = some ⟨.error "missing URL parameter", x, []⟩) ∧
    (∀ u n e, u ≠ "" → n < fuel →
      (∀ j, j < n → ∃ kj v, g u (j : Int) = .ok kj ∧ s.lookup kj = some v ∧ v ≠ u) →
      g u (n : Int) = .error e →
      ∃ o, GenerateKey MockStorage g fuel s u = some o ∧
        o.result = .error ("failed to generate key: " ++ e) ∧ o.storage = s ∧
        storesOf o.trace = []) ∧
    (∀ u o e, GenerateKey MockStorage g fuel s u = some o → o.result = .error e →
      (e = "missing URL parameter" ∨ ∃ e0, e = "failed to generate key: " ++ e0) ∧
        o.storage = s ∧ storesOf o.trace = []) := by
  refine ⟨fun σ st x => GenerateKey_empty st g fuel x, ?_, ?_⟩
  · intro u n e hu hn hcol hg
    obtain ⟨o, ho, hfin⟩ := GenerateKey_complete g fuel s hu n hn hcol (Or.inl ⟨e, hg⟩)
    refine ⟨o, ho, ?_⟩
    rcases hfin with ⟨e2, hg2, hres, hst, htr⟩ | ⟨key, hg2, _⟩ | ⟨key, hg2, _⟩
    · rw [hg] at hg2
      cases hg2
      exact ⟨hres, hst, htr⟩
    · rw [hg] at hg2; cases hg2
    · rw [hg] at hg2; cases hg2
  · intro u o e h hr
    by_cases hu : u = ""
    · subst hu
      rw [GenerateKey_empty] at h
      cases h
      cases hr
      exact ⟨Or.inl rfl, rfl, rfl⟩
    · obtain ⟨n, _, _, hfin⟩ := GenerateKey_sound g fuel s hu h
      rcases hfin with ⟨e2, _, hres, hst, htr⟩ | ⟨key, _, _, hres, _⟩ | ⟨key, _, _, hres, _⟩
      · rw [hres] at hr
        cases hr
        exact ⟨Or.inr ⟨e2, rfl⟩, hst, htr⟩
      · rw [hres] at hr; cases hr
      · rw [hres] at hr; cases hr

/-- C6, on the failing generator of `TestGenerateKey_GeneratorError`: the
error is reported at attempt 0 and the map is untouched. -/
theorem C6_failure_reported_and_atomic_witness :
    GenerateKey MockStorage errorGenerator 1 [] "http://example.com" =
      some ⟨.error "failed to generate key: generation error", [],
        [.generate "http://example.com" 0]⟩ ∧
    ∃ o, GenerateKey MockStorage errorGenerator 1 [] "http://example.com" = some o ∧
      o.result = .error ("failed to generate key: " ++ "generation error") ∧
      o.storage = [] ∧ storesOf o.trace = [] :=
  ⟨rfl, (C6_failure_reported_and_atomic errorGenerator 1 []).2.1 "http://example.com" 0
    "generation error" (by decide) (by decide)
    (fun j hj => absurd hj (Nat.not_lt_zero j)) rfl⟩

/-- C7. `Redirect` on a map fails exactly when the key is empty or has no entry:
on the empty key it returns "missing key parameter" with no call on the
storage, whatever the storage is; on a non-empty key with no entry it returns
"key not found"; on any other key it returns the stored URL as it is; and in
every case the map is left as it was and nothing is written. -/
theorem C7_redirect (s : MapData) (key : String) :
    (∀ (σ : Type) (st : Storage σ) (x : σ),
      Redirect st x "" = ⟨.error "missing key parameter", x, []⟩) ∧
    (key ≠ "" → s.lookup key = none →
      (Redirect MockStorage s key).result = .error "key not found") ∧
    (∀ v, key ≠ "" → s.lookup key = some v →
      (Redirect MockStorage s key).result = .ok ⟨v⟩) ∧
    ((∃ e, (Redirect MockStorage s key).result = .error e) ↔
      (key = "" ∨ s.lookup key = none)) ∧
    (Redirect MockStorage s key).storage = s ∧
    storesOf (Redirect MockStorage s key).trace = [] := by
  refine ⟨fun σ st x => Redirect_empty st x, ?_, ?_, ?_, ?_, ?_⟩
  · intro hk hl
    rw [Redirect_of_lookup_none s hk hl]
  · intro v hk hl
    rw [Redirect_of_lookup_some s hk hl]
  · by_cases hk : key = ""
    · subst hk
      rw [Redirect_empty]
      exact ⟨fun _ => Or.inl rfl, fun _ => ⟨_, rfl⟩⟩
    · cases hl : s.lookup key with
      | none =>
        rw [Redirect_of_lookup_none s hk hl]
        exact ⟨fun _ => Or.inr rfl, fun _ => ⟨_, rfl⟩⟩
      | some v =>
        rw [Redirect_of_lookup_some s hk hl]
        constructor
        · rintro ⟨e, he⟩
          cases he
        · rintro (h | h)
          · exact absurd h hk
          · cases h
  · by_cases hk : key = ""
    · subst hk
      rw [Redirect_empty]
    · cases hl : s.lookup key with
      | none => rw [Redirect_of_lookup_none s hk hl]
      | some v => rw [Redirect_of_lookup_some s hk hl]
  · by_cases hk : key = ""
    · subst hk
      rw [Redirect_empty]
      rfl
    · cases hl : s.lookup key with
      | none => rw [Redirect_of_lookup_none s hk hl]; rfl
      | some v => rw [Redirect_of_lookup_some s hk hl]; rfl

/-- C7, on the map of `TestUrlServer_Redirect` and its valid key. -/
theorem C7_redirect_witness :
    Redirect MockStorage [("validKey", "http://example.com")] "validKey" =
      ⟨.ok ⟨"http://example.com"⟩, [("validKey", "http://example.com")],
        [.load "validKey"]⟩ ∧
    Redirect MockStorage [("validKey", "http://example.com")] "invalidKey" =
      ⟨.error "key not found", [("validKey", "http://example.com")],
        [.load "invalidKey"]⟩ ∧
    (Redirect MockStorage [("validKey", "http://example.com")] "validKey").result =
      .ok ⟨"http://example.com"⟩ :=
  ⟨rfl, rfl, (C7_redirect [("validKey", "http://example.com")] "validKey").2.2.1
    "http://example.com" (by decide) rfl⟩

/-! ## The key deriver -/

theorem base63Chars_length : base63Chars.toList.length = 63 := by decide

/-- Both index expressions of a round are in range when `i` is below 32. -/
theorem shortIdByte_of_lt (sha : Digest) {i : Nat} (hi : i < 32) :
    ∃ x c, sha.bytes[i]? = some x ∧ base63Chars.toList[x % 63]? = some c ∧
      shortIdByte sha i = some c := by
  have hlen : i < sha.bytes.length := by rw [sha.size]; exact hi
  have hx : sha.bytes[i]? = some (sha.bytes[i]) := List.getElem?_eq_getElem hlen
  have hb : sha.bytes[i] % 63 < base63Chars.toList.length := by
    rw [base63Chars_length]
    exact Nat.mod_lt _ (by decide)
  refine ⟨sha.bytes[i], base63Chars.toList[sha.bytes[i] % 63], hx,
    List.getElem?_eq_getElem hb, ?_⟩
  unfold shortIdByte
  rw [hx]
  exact List.getElem?_eq_getElem hb

/-- The loop fills every index it is given when none of them panics. -/
theorem fillShortId_of_forall (sha : Digest) :
    ∀ l : List Nat, (∀ i ∈ l, ∃ c, shortIdByte sha i = some c) →
      fillShortId sha l = some (l.map (fun i => (shortIdByte sha i).getD '0')) := by
  intro l
  induction l with
  | nil => intro _; rfl
  | cons i rest ih =>
    intro h
    obtain ⟨c, hc⟩ := h i (List.mem_cons_self i rest)
    have hrest := ih (fun j hj => h j (List.mem_cons_of_mem i hj))
    simp [fillShortId, hc, hrest]

/-- C8. Short-key shape: for every URL and every integer seed,
`GenerateSecureShortId` returns, with a nil error and without an index out of
range, a string of exactly 10 characters, each of them a symbol of
`base63Chars`; character `i` is the symbol at index `x % 63`, `x` being byte `i`
of the digest of the URL followed by the decimal text of the seed, and that
index is below the length of the alphabet; the alphabet has 63 symbols, all
different, each a digit, a lower-case letter, an upper-case letter or `_`. -/
theorem C8_short_key_shape (Sum256 : List Nat → Digest) (url : String) (seed : Int) :
    ∃ key, GenerateSecureShortId Sum256 url seed = some (.ok key) ∧
      key.length = 10 ∧
      (∀ c ∈ key.toList, c ∈ base63Chars.toList) ∧
      (∀ i, i < 10 → ∃ x, (Sum256 (bytesOf (url ++ Itoa seed))).bytes[i]? = some x ∧
        x % 63 < base63Chars.length ∧
        key.toList[i]? = base63Chars.toList[x % 63]? ∧
        ∃ c, key.toList[i]? = some c) ∧
      base63Chars.length = 63 ∧ base63Chars.toList.Nodup ∧
      (∀ c ∈ base63Chars.toList, c.isDigit ∨ c.isLower ∨ c.isUpper ∨ c = '_') := by
  have hall : ∀ i ∈ List.range 10,
      ∃ c, shortIdByte (Sum256 (bytesOf (url ++ Itoa seed))) i = some c := by
    intro i hi
    have hi10 : i < 10 := List.mem_range.1 hi
    obtain ⟨x, c, _, _, hc⟩ := shortIdByte_of_lt (Sum256 (bytesOf (url ++ Itoa seed)))
      (show i < 32 by omega)
    exact ⟨c, hc⟩
  have hfill := fillShortId_of_forall (Sum256 (bytesOf (url ++ Itoa seed))) (List.range 10) hall
  have hchar : ∀ i, i < 10 →
      ((List.range 10).map (fun i =>
        (shortIdByte (Sum256 (bytesOf (url ++ Itoa seed))) i).getD '0'))[i]? =
      shortIdByte (Sum256 (bytesOf (url ++ Itoa seed))) i := by
    intro i hi
    obtain ⟨c, hc⟩ := hall i (List.mem_range.2 hi)
    rw [List.getElem?_map, List.getElem?_range hi]
    simp [hc]
  refine ⟨String.mk ((List.range 10).map (fun i =>
      (shortIdByte (Sum256 (bytesOf (url ++ Itoa seed))) i).getD '0')), ?_, ?_, ?_, ?_,
    by decide, by decide, by decide⟩
  · unfold GenerateSecureShortId
    simp only [hfill]
  · show ((List.range 10).map _).length = 10
    rw [List.length_map, List.length_range]
  · intro c hc
    have hc2 : c ∈ (List.range 10).map (fun i =>
        (shortIdByte (Sum256 (bytesOf (url ++ Itoa seed))) i).getD '0') := hc
    simp only [List.mem_map, List.mem_range] at hc2
    obtain ⟨i, hi, rfl⟩ := hc2
    obtain ⟨x, c, _, hget, hc⟩ := shortIdByte_of_lt (Sum256 (bytesOf (url ++ Itoa seed)))
      (show i < 32 by omega)
    rw [hc]
    exact List.getElem?_mem hget
  · intro i hi
    obtain ⟨x, c, hx, hget, hc⟩ := shortIdByte_of_lt (Sum256 (bytesOf (url ++ Itoa seed)))
      (show i < 32 by omega)
    refine ⟨x, hx, ?_, ?_, c, ?_⟩
    · show x % 63 < base63Chars.toList.length
      rw [base63Chars_length]
      exact Nat.mod_lt _ (by decide)
    · show ((List.range 10).map _)[i]? = _
      rw [hchar i hi, hc, hget]
    · show ((List.range 10).map _)[i]? = _
      rw [hchar i hi, hc]

/-! ## Storage failures -/

/-- Whatever the storage, an error the loop returns is a generator error. -/
theorem loop_error_is_generator_error {σ : Type} (st : Storage σ) (g : Generator) (u : String) :
    ∀ (fuel i : Nat) (s : σ) (tr : List Event) (o : Outcome σ GenerateKeyResponse) (e : String),
      GenerateKey.loop st g u fuel i s tr = some o → o.result = .error e →
      ∃ e0, e = "failed to generate key: " ++ e0 := by
  intro fuel
  induction fuel with
  | zero => intro i s tr o e h; simp [loop_zero] at h
  | succ fuel ih =>
    intro i s tr o e h hr
    unfold GenerateKey.loop at h
    cases hg : g u (i : Int) with
    | error e0 =>
      simp only [hg] at h
      cases h
      cases hr
      exact ⟨e0, rfl⟩
    | ok key =>
      simp only [hg] at h
      rcases hL : st.Load s key with ⟨⟨v, ok⟩, s1⟩
      simp only [hL] at h
      cases ok with
      | false =>
        simp at h
        cases h
        cases hr
      | true =>
        by_cases hv : v = u
        · simp [hv] at h
          cases h
          cases hr
        · simp [hv] at h
          exact ih _ _ _ o e h hr

/-- On a dead connection the PostgreSQL store answers every `Load` with
`("", false)` and drops every `Store`. -/
theorem PostgresStringMap_dead (rows : MapData) (key value : String) :
    PostgresStringMap.Load ⟨rows, false⟩ key = (("", false), ⟨rows, false⟩) ∧
    PostgresStringMap.Store ⟨rows, false⟩ key value = ⟨rows, false⟩ := by
  constructor <;> rfl

/-- C9 as stated fails. The connection of the PostgreSQL store is dead, so the
read of `"path0"` fails and the write fails; the table holds `"path0"` for
another URL. `GenerateKey` returns no error: it takes the failed read for an
absent key and reports `"path0"` with "Data received successfully". -/
theorem C9_counterexample :
    PgConn.QueryRowScan ⟨[("path0", "http://example.com")], false⟩ "path0" =
      .error (.other "conn closed") ∧
    (PgConn.ExecUpsert ⟨[("path0", "http://example.com")], false⟩ "path0"
      "http://other.org").1 = some (.other "conn closed") ∧
    GenerateKey PostgresStringMap.toStorage MockGenerator 1
        ⟨[("path0", "http://example.com")], false⟩ "http://other.org" =
      some ⟨.ok ⟨msgCreated, "path0"⟩, ⟨[("path0", "http://example.com")], false⟩,
        [.generate "http://other.org" 0, .load "path0",
          .store "path0" "http://other.org"]⟩ ∧
    ¬ ∃ o e, GenerateKey PostgresStringMap.toStorage MockGenerator 1
        ⟨[("path0", "http://example.com")], false⟩ "http://other.org" = some o ∧
      o.result = .error e := by
  refine ⟨rfl, rfl, rfl, ?_⟩
  rintro ⟨o, e, h, hr⟩
  have h2 : GenerateKey PostgresStringMap.toStorage MockGenerator 1
      ⟨[("path0", "http://example.com")], false⟩ "http://other.org" =
      some ⟨.ok ⟨msgCreated, "path0"⟩, ⟨[("path0", "http://example.com")], false⟩,
        [.generate "http://other.org" 0, .load "path0",
          .store "path0" "http://other.org"]⟩ := rfl
  rw [h2] at h
  cases h
  cases hr

/-- C9, amended. Store failures are not propagated: whatever the storage, the
only errors of `GenerateKey` are "missing URL parameter" and "failed to generate
key: " followed by the generator's error; and when the PostgreSQL store fails
to read and to write (its connection is dead), `GenerateKey` on a non-empty
URL takes the failed read for an absent key, drops the write, and returns the
key of attempt 0 with "Data received successfully", the table unchanged. -/
theorem C9_store_failures_not_propagated (g : Generator) :
    (∀ (σ : Type) (st : Storage σ) (fuel : Nat) (s : σ) (u : String)
        (o : Outcome σ GenerateKeyResponse) (e : String),
      GenerateKey st g fuel s u = some o → o.result = .error e →
      e = "missing URL parameter" ∨ ∃ e0, e = "failed to generate key: " ++ e0) ∧
    (∀ (rows : MapData) (u k : String) (fuel : Nat), u ≠ "" → g u 0 = .ok k →
      GenerateKey PostgresStringMap.toStorage g (fuel + 1) ⟨rows, false⟩ u =
        some ⟨.ok ⟨msgCreated, k⟩, ⟨rows, false⟩,
          [.generate u 0, .load k, .store k u]⟩) := by
  constructor
  · intro σ st fuel s u o e h hr
    by_cases hu : u = ""
    · subst hu
      rw [GenerateKey_empty] at h
      cases h
      cases hr
      exact Or.inl rfl
    · rw [GenerateKey_of_ne st g fuel s hu] at h
      exact Or.inr (loop_error_is_generator_error st g u fuel 0 s [] o e h hr)
  · intro rows u k fuel hu hg
    have hg0 : g u ((0 : Nat) : Int) = .ok k := by simpa using hg
    rw [GenerateKey_of_ne PostgresStringMap.toStorage g (fuel + 1) _ hu]
    unfold GenerateKey.loop
    simp only [hg0]
    have hL : PostgresStringMap.Load ⟨rows, false⟩ k = (("", false), ⟨rows, false⟩) :=
      (PostgresStringMap_dead rows k u).1
    have hS : PostgresStringMap.Store ⟨rows, false⟩ k u = ⟨rows, false⟩ :=
      (PostgresStringMap_dead rows k u).2
    simp [PostgresStringMap.toStorage, hL, hS]

/-- C9 amended, on the table and URL of the counterexample. -/
theorem C9_store_failures_not_propagated_witness :
    GenerateKey PostgresStringMap.toStorage MockGenerator (0 + 1)
        ⟨[("path0", "http://example.com")], false⟩ "http://other.org" =
      some ⟨.ok ⟨msgCreated, "path0"⟩, ⟨[("path0", "http://example.com")], false⟩,
        [.generate "http://other.org" 0, .load "path0",
          .store "path0" "http://other.org"]⟩ :=
  (C9_store_failures_not_propagated MockGenerator).2 [("path0", "http://example.com")]
    "http://other.org" "path0" 0 (by decide) rfl

/-! ## One key per URL -/

theorem Canonical_nil (g : Generator) : Canonical g [] := by
  intro k u h
  cases h

/-- A returning `GenerateKey` keeps every entry at the first attempt of its URL
that does not collide. -/
theorem Canonical_GenerateKey (g : Generator) (fuel : Nat) (s : MapData) (u : String)
    (o : Outcome MapData GenerateKeyResponse) (hs : Canonical g s)
    (h : GenerateKey MockStorage g fuel s u = some o) : Canonical g o.storage := by
  by_cases hu : u = ""
  · subst hu
    rw [GenerateKey_empty] at h
    cases h
    exact hs
  · obtain ⟨n, _, hcol, hfin⟩ := GenerateKey_sound g fuel s hu h
    rcases hfin with ⟨e, _, _, hst, _⟩ | ⟨key, hg, hl, _, hst, _⟩ | ⟨key, _, _, _, hst, _⟩
    · rw [hst]; exact hs
    · rw [hst]
      intro k2 u2 hk2
      by_cases hk : k2 = key
      · subst hk
        rw [MapData.lookup_cons_self] at hk2
        cases hk2
        exact ⟨n, hg, fun j hj => (hcol j hj).cons u hl⟩
      · rw [MapData.lookup_cons_of_ne s u hk] at hk2
        obtain ⟨n2, hg2, hcol2⟩ := hs k2 u2 hk2
        exact ⟨n2, hg2, fun j hj => (hcol2 j hj).cons u hl⟩
    · rw [hst]; exact hs

theorem Canonical_of_reachable (g : Generator) {s : MapData} (h : Reachable g s) :
    Canonical g s := by
  induction h with
  | empty => exact Canonical_nil g
  | call fuel u o _ hcall ih => exact Canonical_GenerateKey g fuel _ u o ih hcall

/-- When every entry sits at the first attempt of its URL that does not
collide, no URL has two keys. -/
theorem Canonical.injective {g : Generator} {s : MapData} (hs : Canonical g s)
    {k1 k2 u : String} (h1 : s.lookup k1 = some u) (h2 : s.lookup k2 = some u) : k1 = k2 := by
  obtain ⟨n1, hg1, hcol1⟩ := hs k1 u h1
  obtain ⟨n2, hg2, hcol2⟩ := hs k2 u h2
  rcases Nat.lt_trichotomy n1 n2 with hlt | heq | hgt
  · obtain ⟨kj, v, hgj, hlj, hv⟩ := hcol2 n1 hlt
    rw [hg1] at hgj
    cases hgj
    rw [h1] at hlj
    exact absurd (Option.some.inj hlj).symm hv
  · subst heq
    rw [hg1] at hg2
    cases hg2
    rfl
  · obtain ⟨kj, v, hgj, hlj, hv⟩ := hcol1 n2 hgt
    rw [hg2] at hgj
    cases hgj
    rw [h2] at hlj
    exact absurd (Option.some.inj hlj).symm hv

/-- C10. One canonical key per URL: in every map reached from the empty map by
`GenerateKey` calls made one after the other with one generator, no URL is
stored under two different keys. -/
theorem C10_one_key_per_url (g : Generator) (s : MapData) (h : Reachable g s)
    (k1 k2 u : String) (h1 : s.lookup k1 = some u) (h2 : s.lookup k2 = some u) : k1 = k2 :=
  (Canonical_of_reachable g h).injective h1 h2

/-- C10, on the map two calls with the stub generator leave: the second URL
collides on attempt 0 and is stored under the key of attempt 1. -/
theorem C10_one_key_per_url_witness :
    Reachable MockGenerator [("path1", "http://b.org"), ("path0", "http://a.org")] ∧
    List.lookup "path1" [("path1", "http://b.org"), ("path0", "http://a.org")] =
      some "http://b.org" ∧
    "path1" = "path1" :=
  have hr : Reachable MockGenerator [("path1", "http://b.org"), ("path0", "http://a.org")] :=
    Reachable.call 2 "http://b.org"
      ⟨.ok ⟨msgCreated, "path1"⟩, [("path1", "http://b.org"), ("path0", "http://a.org")],
        [.generate "http://b.org" 0, .load "path0", .generate "http://b.org" 1,
          .load "path1", .store "path1" "http://b.org"]⟩
      (Reachable.call 1 "http://a.org"
        ⟨.ok ⟨msgCreated, "path0"⟩, [("path0", "http://a.org")],
          [.generate "http://a.org" 0, .load "path0", .store "path0" "http://a.org"]⟩
        Reachable.empty rfl) rfl
  ⟨hr, rfl, C10_one_key_per_url MockGenerator _ hr "path1" "path1" "http://b.org" rfl rfl⟩

/-! ## Bounded probing -/

theorem MapData.mem_keys_of_lookup {m : MapData} {key v : String}
    (h : m.lookup key = some v) : key ∈ m.map Prod.fst := by
  induction m with
  | nil => cases h
  | cons q m ih =>
    obtain ⟨a, b⟩ := q
    rw [List.lookup_cons] at h
    cases hka : (key == a) with
    | true =>
      have : key = a := by simpa using hka
      subst this
      exact List.mem_cons_self _ _
    | false =>
      rw [hka] at h
      exact List.mem_cons_of_mem _ (ih h)

theorem keyAt_of_ok {g : Generator} {u key : String} {j : Nat}
    (h : g u (j : Int) = .ok key) : keyAt g u j = key := by
  simp [keyAt, h]

/-- A loop whose every attempt collides never returns. -/
theorem loop_none_of_collides (g : Generator) (u : String) (s : MapData)
    (hcol : ∀ j, Collides g s u j) (fuel i : Nat) (tr : List Event) :
    GenerateKey.loop MockStorage g u fuel i s tr = none := by
  cases h : GenerateKey.loop MockStorage g u fuel i s tr with
  | none => rfl
  | some o =>
    obtain ⟨n, _, _, _, hfin⟩ := loop_sound g u fuel i s tr o h
    obtain ⟨kn, v, hg, hl, hv⟩ := hcol n
    rcases hfin with ⟨e, hg2, _⟩ | ⟨key, hg2, hl2, _⟩ | ⟨key, hg2, hl2, _⟩
    · rw [hg] at hg2; cases hg2
    · rw [hg] at hg2
      cases hg2
      rw [hl] at hl2
      cases hl2
    · rw [hg] at hg2
      cases hg2
      rw [hl] at hl2
      exact absurd (Option.some.inj hl2) hv

/-- Pigeonhole: a map with at most `m` keys cannot hold the `m + 1` different
keys of the attempts `0, ..., m`. -/
theorem exists_not_collides (g : Generator) (s : MapData) (u : String) (m : Nat)
    (hsize : s.size ≤ m)
    (hinj : ∀ i j : Nat, i ≤ m → j ≤ m → g u (i : Int) = g u (j : Int) → i = j) :
    ∃ j, j ≤ m ∧ ¬ Collides g s u j := by
  by_contra hno
  have hall : ∀ j, j ≤ m → Collides g s u j := by
    intro j hj
    by_contra hc
    exact hno ⟨j, hj, hc⟩
  have hmaps : ∀ j ∈ Finset.range (m + 1), keyAt g u j ∈ (s.map Prod.fst).toFinset := by
    intro j hj
    obtain ⟨kj, v, hg, hl, _⟩ := hall j (by simpa [Nat.lt_succ_iff] using hj)
    rw [keyAt_of_ok hg]
    exact List.mem_toFinset.2 (MapData.mem_keys_of_lookup hl)
  have hinjOn : Set.InjOn (keyAt g u) (Finset.range (m + 1) : Set Nat) := by
    intro i hi j hj hij
    have hi2 : i ≤ m := by simpa [Nat.lt_succ_iff] using hi
    have hj2 : j ≤ m := by simpa [Nat.lt_succ_iff] using hj
    obtain ⟨ki, _, hgi, _, _⟩ := hall i hi2
    obtain ⟨kj, _, hgj, _, _⟩ := hall j hj2
    rw [keyAt_of_ok hgi, keyAt_of_ok hgj] at hij
    apply hinj i j hi2 hj2
    rw [hgi, hgj, hij]
  have hcard := Finset.card_le_card_of_injOn (keyAt g u) hmaps hinjOn
  rw [Finset.card_range, List.card_toFinset] at hcard
  unfold MapData.size at hsize
  omega

/-- The least attempt up to `m` that does not collide. -/
theorem exists_least_not_collides (g : Generator) (s : MapData) (u : String) (m : Nat)
    (h : ∃ j, j ≤ m ∧ ¬ Collides g s u j) :
    ∃ n, n ≤ m ∧ ¬ Collides g s u n ∧ ∀ j, j < n → Collides g s u j := by
  classical
  have hex : ∃ j, ¬ Collides g s u j := by
    obtain ⟨j, _, hj⟩ := h
    exact ⟨j, hj⟩
  refine ⟨Nat.find hex, ?_, Nat.find_spec hex, ?_⟩
  · obtain ⟨j, hjm, hj⟩ := h
    exact le_trans (Nat.find_min' hex hj) hjm
  · intro j hj
    by_contra hc
    exact Nat.find_min hex hj hc

/-- C11. Bounded probing under an injective generator: for a non-empty URL
`u`, a map holding at most `m` keys and a generator that does not fail on the
attempts `0, ..., m` and gives them pairwise different keys, the loop of
`GenerateKey(u)` leaves at an attempt `n ≤ m`: every attempt before `n`
collides, and with any fuel above `n` the call returns the key of attempt `n`
with one of the two outcomes. Without the different keys the bound is lost:
when every attempt collides the call returns for no amount of fuel, as with a
constant generator whose one key the map holds for another URL. -/
theorem C11_bounded_probing (u : String) (hu : u ≠ "") :
    (∀ (g : Generator) (s : MapData) (m : Nat), s.size ≤ m →
      (∀ j : Nat, j ≤ m → ∃ key, g u (j : Int) = .ok key) →
      (∀ i j : Nat, i ≤ m → j ≤ m → g u (i : Int) = g u (j : Int) → i = j) →
      ∃ (n : Nat) (key : String), n ≤ m ∧ g u (n : Int) = .ok key ∧
        (∀ j, j < n → Collides g s u j) ∧
        ∀ fuel, n < fuel → ∃ o, GenerateKey MockStorage g fuel s u = some o ∧
          (o.result = .ok ⟨msgCreated, key⟩ ∨ o.result = .ok ⟨msgAlreadyExists, key⟩)) ∧
    (∀ (g : Generator) (s : MapData), (∀ j, Collides g s u j) →
      ∀ fuel, GenerateKey MockStorage g fuel s u = none) ∧
    (∀ (key v : String) (rest : MapData), v ≠ u →
      (∀ j, Collides (constantGenerator key) ((key, v) :: rest) u j) ∧
      ∀ fuel, GenerateKey MockStorage (constantGenerator key) fuel ((key, v) :: rest) u =
        none) := by
  have hnever : ∀ (g : Generator) (s : MapData), (∀ j, Collides g s u j) →
      ∀ fuel, GenerateKey MockStorage g fuel s u = none := by
    intro g s hcol fuel
    rw [GenerateKey_of_ne MockStorage g fuel s hu]
    exact loop_none_of_collides g u s hcol fuel 0 []
  refine ⟨?_, hnever, ?_⟩
  · intro g s m hsize hok hinj
    obtain ⟨n, hnm, hnc, hbefore⟩ := exists_least_not_collides g s u m
      (exists_not_collides g s u m hsize hinj)
    obtain ⟨key, hg⟩ := hok n hnm
    have hfree : s.lookup key = none ∨ s.lookup key = some u := by
      cases hl : s.lookup key with
      | none => exact Or.inl rfl
      | some v =>
        by_cases hv : v = u
        · subst hv
          exact Or.inr rfl
        · exact absurd ⟨key, v, hg, hl, hv⟩ hnc
    refine ⟨n, key, hnm, hg, hbefore, ?_⟩
    intro fuel hfuel
    obtain ⟨o, ho, hfin⟩ := GenerateKey_complete g fuel s hu n hfuel hbefore
      (Or.inr ⟨key, hg, hfree⟩)
    refine ⟨o, ho, ?_⟩
    rcases hfin with ⟨e, hg2, _⟩ | ⟨key2, hg2, _, hres, _⟩ | ⟨key2, hg2, _, hres, _⟩
    · rw [hg] at hg2; cases hg2
    · rw [hg] at hg2
      cases hg2
      exact Or.inl hres
    · rw [hg] at hg2
      cases hg2
      exact Or.inr hres
  · intro key v rest hv
    have hcol : ∀ j, Collides (constantGenerator key) ((key, v) :: rest) u j :=
      fun j => ⟨key, v, rfl, MapData.lookup_cons_self rest key v, hv⟩
    exact ⟨hcol, hnever _ _ hcol⟩

/-- C11, on the stub generator and a map of one key, `"path0"`, held by another
URL: the call leaves at an attempt `n ≤ 1`. -/
theorem C11_bounded_probing_witness :
    GenerateKey MockStorage MockGenerator 2 [("path0", "http://other.org")]
        "http://example.com" =
      some ⟨.ok ⟨msgCreated, "path1"⟩,
        [("path1", "http://example.com"), ("path0", "http://other.org")],
        [.generate "http://example.com" 0, .load "path0", .generate "http://example.com" 1,
          .load "path1", .store "path1" "http://example.com"]⟩ ∧
    ∃ (n : Nat) (key : String), n ≤ 1 ∧ MockGenerator "http://example.com" (n : Int) = .ok key ∧
      (∀ j, j < n →
        Collides MockGenerator [("path0", "http://other.org")] "http://example.com" j) ∧
      ∀ fuel, n < fuel →
        ∃ o, GenerateKey MockStorage MockGenerator fuel [("path0", "http://other.org")]
            "http://example.com" = some o ∧
          (o.result = .ok ⟨msgCreated, key⟩ ∨ o.result = .ok ⟨msgAlreadyExists, key⟩) :=
  ⟨rfl, (C11_bounded_probing "http://example.com" (by decide)).1 MockGenerator
    [("path0", "http://other.org")] 1 (by decide)
    (fun j _ => ⟨"path" ++ toString (j : Int), rfl⟩)
    (by
      intro i j hi hj h
      have hkeys : "path" ++ toString (i : Int) = "path" ++ toString (j : Int) :=
        Except.ok.inj h
      interval_cases i <;> interval_cases j <;>
        first | rfl | (exact absurd hkeys (by decide)))⟩

end OZON
